import Mathlib

/-
Shallow embedding of src/main.py (class PDFMetadataExtractor): the
segmentation and normalization pipeline that turns a PDF into retrievable
units, embeds each unit and stores it in a Qdrant collection.

External collaborators are modelled as parameters or as explicit inputs:
the PDF library supplies, per page, the page text and the list of embedded
images; the OCR engine is the ocrText field of an image; the embedding
model is a function argument encode; the Qdrant client is modelled by the
contents of the collection (a finite map from point id to vector and
payload) plus, where a claim is about failure behaviour, an explicit
reachability flag for the network call.

Python dictionaries built by the extractors are modelled as association
lists of string keys and string or integer values, in insertion order.
-/

namespace PdfMeta

/-- Values held by the item dictionaries of main.py: strings and integers. -/
inductive Value where
  | s (v : String)
  | n (v : Nat)
deriving DecidableEq

/-- A Python dictionary as the extractors build them: key and value pairs
in insertion order, every key distinct. -/
abbrev Dict := List (String × Value)

/-- Coercion of a Value to a Python str; every key that store_in_qdrant
reads holds a string in this program. -/
def Value.asStr : Value → String
  | .s v => v
  | .n v => toString v

/-- Characters removed by the Python call str.strip with no argument,
restricted to ASCII whitespace: space, tab, line feed, carriage return,
vertical tab and form feed. Unicode-only whitespace is not modelled; no
claim depends on it. -/
def pyIsSpace (c : Char) : Bool :=
  c == ' ' || c == '\t' || c == '\n' || c == '\r' || c == '\x0b' || c == '\x0c'

/-- The Python call s.strip with no argument: drop the whitespace
characters from both ends of the string. -/
def pyStrip (s : String) : String :=
  String.mk (((s.toList.dropWhile pyIsSpace).reverse.dropWhile pyIsSpace).reverse)

/-- Split a character list at every non-overlapping occurrence of two
consecutive line feed characters, scanning left to right: the semantics of
the Python call text.split with the two character separator used on lines
61 and 83 of main.py. -/
def splitSepNN : List Char → List (List Char)
  | [] => [[]]
  | '\n' :: '\n' :: rest => [] :: splitSepNN rest
  | c :: rest =>
    match splitSepNN rest with
    | [] => [[c]]
    | frag :: frags => (c :: frag) :: frags

/-- The Python call text.split on a double line feed, over String. -/
def pySplitDoubleNL (s : String) : List String :=
  (splitSepNN s.toList).map String.mk

/-- Condition of line 84 of main.py: the block contains a pipe character
or a tab character. -/
def hasTableMark (block : String) : Bool :=
  block.toList.contains '|' || block.toList.contains '\t'

/-- One raster image embedded in a page. The OCR collaborator pytesseract
is external; ocrText records the text it returns for this image. -/
structure PDFImage where
  ocrText : String
deriving DecidableEq

/-- One page of the open document, as the external PDF library exposes it:
page.get_text gives text, page.get_images gives images. -/
structure Page where
  text : String
  images : List PDFImage
deriving DecidableEq

/-- The item dictionary built on lines 64 to 68 of main.py. -/
def paragraphItem (t : String) (page_num para_num : Nat) : Dict :=
  [("text", Value.s t), ("page", Value.n page_num), ("paragraph", Value.n para_num)]

/-- Embedding of extract_text_with_metadata, main.py lines 52 to 70: for
each page, split its text on double line feeds, keep the fragments that
are nonempty after stripping, strip them, and record each with its 1-based
page number and 1-based paragraph ordinal. -/
def extract_text_with_metadata (doc : List Page) : List Dict :=
  (List.enumFrom 1 doc).flatMap fun pg =>
    (List.enumFrom 1
        (((pySplitDoubleNL pg.2.text).filter (fun p => !(pyStrip p).isEmpty)).map pyStrip)).map
      fun pr => paragraphItem pr.2 pg.1 pr.1

/-- The description string built on line 90 of main.py. -/
def tableDescr (table_num page_num : Nat) : String :=
  "Table " ++ toString table_num ++ " on page " ++ toString page_num

/-- The item dictionary built on lines 88 to 92 of main.py. Note that the
table ordinal appears only inside the description string: the dictionary
has no separate ordinal field. -/
def tableItem (b : String) (table_num page_num : Nat) : Dict :=
  [("table", Value.s b), ("description", Value.s (tableDescr table_num page_num)),
   ("page", Value.n page_num)]

/-- Embedding of extract_tables, main.py lines 72 to 94: for each page,
split its text on double line feeds, keep the blocks that contain a pipe
or a tab, and record each with a description naming its 1-based ordinal
and page. The blocks are neither stripped nor filtered for emptiness. -/
def extract_tables (doc : List Page) : List Dict :=
  (List.enumFrom 1 doc).flatMap fun pg =>
    (List.enumFrom 1 ((pySplitDoubleNL pg.2.text).filter hasTableMark)).map
      fun tb => tableItem tb.2 tb.1 pg.1

/-- The Python exception raised by the body of extract_images: the name
BytesIO on line 112 of main.py is neither imported nor defined anywhere in
the module, so evaluating it raises NameError. -/
inductive PyError where
  | nameError
deriving DecidableEq

/-- The item dictionary built on lines 115 to 119 of main.py. -/
def imageItem (d : String) (page_num img_index : Nat) : Dict :=
  [("description", Value.s d), ("page", Value.n page_num),
   ("image_index", Value.n img_index)]

/-- Embedding of extract_images, main.py lines 96 to 121, as written: the
loop body evaluates the undefined name BytesIO on line 112 before anything
else observable, so the first image reached raises NameError and the
exception propagates out of the method; pages without images contribute
nothing, and a document without images returns the empty list. -/
def extract_images : List Page → Except PyError (List Dict)
  | [] => .ok []
  | pg :: rest =>
    match pg.images with
    | [] => extract_images rest
    | _ :: _ => .error .nameError

/-- Behaviour of extract_images once the missing import of BytesIO is
supplied, which line 112 plainly intends: decode each image, run OCR on
it, and build the description of line 116 (the stripped OCR text, or the
placeholder caption when the stripped OCR text is empty). -/
def extract_images_fixed (doc : List Page) : List Dict :=
  (List.enumFrom 1 doc).flatMap fun pg =>
    (List.enumFrom 1 pg.2.images).map fun im =>
      imageItem
        (if (pyStrip im.2.ocrText).isEmpty then
          "Image " ++ toString im.1 ++ " on page " ++ toString pg.1
        else pyStrip im.2.ocrText)
        pg.1 im.1

/-- Text selection of store_in_qdrant, main.py lines 132 to 137: an item
with a text key is embedded from that value; otherwise an item with a
description key is embedded from that value; an item with neither key is
skipped by the continue on line 137. Selection is by key presence; the
table key is never consulted. -/
def select_text (item : Dict) : Option String :=
  match item.lookup "text" with
  | some v => some v.asStr
  | none =>
    match item.lookup "description" with
    | some v => some v.asStr
    | none => none

/-- One PointStruct submitted to Qdrant, main.py lines 139 to 145: the
loop index as id, the vector returned by the embedding model for the
selected text, and the item dictionary itself as payload. -/
structure Point (V : Type) where
  id : Nat
  vector : V
  payload : Dict
deriving DecidableEq

/-- Loop of store_in_qdrant, main.py lines 129 to 145: idx enumerates
every item of the batch from 0, advancing also over skipped items; the
embedding model is the external collaborator encode. -/
def store_points_aux {V : Type} (encode : String → V) : Nat → List Dict → List (Point V)
  | _, [] => []
  | idx, item :: rest =>
    match select_text item with
    | some t => { id := idx, vector := encode t, payload := item } ::
        store_points_aux encode (idx + 1) rest
    | none => store_points_aux encode (idx + 1) rest

/-- The points one call to store_in_qdrant builds from a batch. -/
def store_points {V : Type} (encode : String → V) (data : List Dict) : List (Point V) :=
  store_points_aux encode 0 data

/-- Contents of the Qdrant collection: for each point id, the stored
vector and payload. -/
abbrev StoreMap (V : Type) := List (Nat × V × Dict)

/-- Read the collection: the vector and payload stored under a point id. -/
def getPoint {V : Type} (i : Nat) : StoreMap V → Option (V × Dict)
  | [] => none
  | (j, p) :: rest => if i = j then some p else getPoint i rest

/-- Qdrant upsert of one point: insert, or overwrite the stored point that
has the same id. -/
def putPoint {V : Type} : StoreMap V → Nat → V × Dict → StoreMap V
  | [], i, p => [(i, p)]
  | (j, q) :: rest, i, p =>
    if i = j then (i, p) :: rest else (j, q) :: putPoint rest i p

/-- Qdrant upsert of a batch of points, in order: a later point whose id
is already present overwrites the stored point with that id. -/
def upsertPoints {V : Type} (st : StoreMap V) (pts : List (Point V)) : StoreMap V :=
  pts.foldl (fun s p => putPoint s p.id (p.vector, p.payload)) st

/-- Embedding of store_in_qdrant, main.py lines 123 to 151, as its effect
on the collection contents: build the points of the batch and upsert them
in one call. -/
def store_in_qdrant {V : Type} (encode : String → V) (st : StoreMap V)
    (data : List Dict) : StoreMap V :=
  upsertPoints st (store_points encode data)

/-- Embedding of process_pdf, main.py lines 173 to 189: store the
paragraph batch, then the table batch, then attempt the image batch. An
exception from extract_images propagates after the first two upserts have
already happened, so the result records the collection contents at exit
together with whether the run raised. -/
def process_pdf {V : Type} (encode : String → V) (doc : List Page) (st0 : StoreMap V) :
    StoreMap V × Except PyError Unit :=
  let st1 := store_in_qdrant encode st0 (extract_text_with_metadata doc)
  let st2 := store_in_qdrant encode st1 (extract_tables doc)
  match extract_images doc with
  | .error e => (st2, .error e)
  | .ok image_metadata => (store_in_qdrant encode st2 image_metadata, .ok ())

/-- Failures of a call to the Qdrant client. -/
inductive StoreError where
  | unreachable
  | alreadyExists
deriving DecidableEq

/-- The client call create_collection on lines 44 to 47 of main.py: the
network call fails when the store is not reachable, and also when the
collection already exists; on success the collection exists afterwards.
The returned Bool is the collection state after the call. -/
def client_create_collection (reachable collExists : Bool) : Except StoreError Bool :=
  if reachable = false then .error .unreachable
  else if collExists then .error .alreadyExists
  else .ok true

/-- Embedding of create_qdrant_collection, main.py lines 39 to 50: the
client call is wrapped in a bare try with except pass, so every failure,
including an unreachable store, is swallowed and the method never raises.
The pair is the collection state afterwards and the outcome surfaced to
the caller. -/
def create_qdrant_collection (reachable collExists : Bool) : Bool × Except StoreError Unit :=
  match client_create_collection reachable collExists with
  | .ok newExists => (newExists, .ok ())
  | .error _ => (collExists, .ok ())

/-- The client call upsert on lines 148 to 151 of main.py: the network
call fails when the store is not reachable. -/
def client_upsert {V : Type} (reachable : Bool) (st : StoreMap V) (pts : List (Point V)) :
    Except StoreError (StoreMap V) :=
  if reachable then .ok (upsertPoints st pts) else .error .unreachable

/-- store_in_qdrant with the fallibility of the client upsert call made
explicit: the method has no exception handler, so a client failure
propagates to the caller. -/
def store_in_qdrant_run {V : Type} (reachable : Bool) (encode : String → V)
    (st : StoreMap V) (data : List Dict) : Except StoreError (StoreMap V) :=
  client_upsert reachable st (store_points encode data)

/-- Embedding of query_qdrant, main.py lines 153 to 171: embed the query,
call the external client search with the query vector and the limit, and
return the payload of each result. The method has no exception handler,
so a search failure propagates to the caller. -/
def query_qdrant {V : Type} (search : V → Nat → Except StoreError (List (V × Dict)))
    (encode : String → V) (q : String) (top_k : Nat) : Except StoreError (List Dict) :=
  match search (encode q) top_k with
  | .error e => .error e
  | .ok res => .ok (res.map fun r => r.2)

/-- Spec side paragraph extraction for one page, stated as the spec words
it: split the page text on blank line boundaries, trim surrounding
whitespace from each fragment, discard the fragments that are empty after
trimming. -/
def spec_page_fragments (text : String) : List String :=
  ((pySplitDoubleNL text).map pyStrip).filter (fun f => !f.isEmpty)

/-- Spec side numbering: pair the surviving fragments of a page with the
ordinals 1 to N in their original order. -/
def spec_number_fragments (page_num : Nat) (frags : List String) : List Dict :=
  ((List.range' 1 frags.length).zip frags).map fun z =>
    paragraphItem z.2 page_num z.1

/-- Spec side paragraph batch: pages numbered 1 to P in order, each
contributing its numbered surviving fragments. -/
def spec_paragraph_batch (doc : List Page) : List Dict :=
  ((List.range' 1 doc.length).zip doc).flatMap fun z =>
    spec_number_fragments z.1 (spec_page_fragments z.2.text)

/-! Equation lemmas and elementary facts about the embedded definitions. -/

/-- Unfolding of extract_images on a nonempty document. -/
theorem extract_images_cons (pg : Page) (rest : List Page) :
    extract_images (pg :: rest) =
      match pg.images with
      | [] => extract_images rest
      | _ :: _ => .error .nameError := rfl

/-- Unfolding of the store_in_qdrant loop on a nonempty batch. -/
theorem store_points_aux_cons {V : Type} (encode : String → V) (n : Nat) (item : Dict)
    (rest : List Dict) :
    store_points_aux encode n (item :: rest) =
      match select_text item with
      | some t => { id := n, vector := encode t, payload := item } ::
          store_points_aux encode (n + 1) rest
      | none => store_points_aux encode (n + 1) rest := rfl

/-- Unfolding of upsertPoints on a nonempty batch. -/
theorem upsertPoints_cons {V : Type} (st : StoreMap V) (p : Point V) (rest : List (Point V)) :
    upsertPoints st (p :: rest) = upsertPoints (putPoint st p.id (p.vector, p.payload)) rest := rfl

/-- A member of an enumerated list is a member of the list. -/
theorem snd_mem_enumFrom {α : Type _} {l : List α} {n : Nat} {z : Nat × α}
    (h : z ∈ List.enumFrom n l) : z.2 ∈ l := by
  induction l generalizing n with
  | nil => simp [List.enumFrom] at h
  | cons a l ih =>
    rw [List.enumFrom_cons] at h
    rcases List.mem_cons.mp h with h | h
    · rw [h]; exact List.mem_cons_self a l
    · exact List.mem_cons_of_mem _ (ih h)

/-- A string whose isEmpty test is false is not the empty string. -/
theorem ne_empty_of_isEmpty_false {s : String} (h : s.isEmpty = false) : s ≠ "" := by
  intro hs
  rw [hs] at h
  exact absurd h (by decide)

/-- The description string of a table unit is never empty. -/
theorem tableDescr_ne_empty (tnum page : Nat) : tableDescr tnum page ≠ "" := by
  intro h
  have h6 : ("Table " : String).length = 6 := rfl
  have h0 : ("" : String).length = 0 := rfl
  have hl := congrArg String.length h
  rw [tableDescr, String.length_append, String.length_append, String.length_append,
    h6, h0] at hl
  omega

/-- Text selection on a paragraph item picks its text field. -/
theorem select_text_paragraphItem (t : String) (page para : Nat) :
    select_text (paragraphItem t page para) = some t := rfl

/-- Text selection on a table item picks its description field: the item
has no text key, and the table key is never consulted. -/
theorem select_text_tableItem (b : String) (tnum page : Nat) :
    select_text (tableItem b tnum page) = some (tableDescr tnum page) := rfl

/-- Text selection on an image item picks its description field. -/
theorem select_text_imageItem (d : String) (page idx : Nat) :
    select_text (imageItem d page idx) = some d := rfl

/-- Every paragraph batch member is a paragraph item whose text is a
fragment that survived stripping, hence nonempty. -/
theorem mem_extract_text (doc : List Page) (d : Dict)
    (h : d ∈ extract_text_with_metadata doc) :
    ∃ t page para, d = paragraphItem t page para ∧ t.isEmpty = false := by
  unfold extract_text_with_metadata at h
  rcases List.mem_flatMap.mp h with ⟨pg, _, hd⟩
  rcases List.mem_map.mp hd with ⟨pr, hpr, he⟩
  refine ⟨pr.2, pg.1, pr.1, he.symm, ?_⟩
  have h2 := snd_mem_enumFrom hpr
  rcases List.mem_map.mp h2 with ⟨x, hx, hpx⟩
  have h3 := (List.mem_filter.mp hx).2
  rw [← hpx]
  simpa using h3

/-- Every table batch member is a table item. -/
theorem mem_extract_tables (doc : List Page) (d : Dict)
    (h : d ∈ extract_tables doc) :
    ∃ b tnum page, d = tableItem b tnum page := by
  unfold extract_tables at h
  rcases List.mem_flatMap.mp h with ⟨pg, _, hd⟩
  rcases List.mem_map.mp hd with ⟨tb, _, he⟩
  exact ⟨tb.2, tb.1, pg.1, he.symm⟩

/-- A run of extract_images that does not raise produced no image unit:
the only way the loop completes is that no page has an image. -/
theorem extract_images_ok_nil {doc : List Page} {l : List Dict}
    (h : extract_images doc = .ok l) : l = [] := by
  induction doc with
  | nil =>
    have h2 : Except.ok (ε := PyError) [] = Except.ok l := h
    simpa using h2.symm
  | cons pg rest ih =>
    rw [extract_images_cons] at h
    cases him : pg.images with
    | nil =>
      rw [him] at h
      exact ih h
    | cons a b =>
      rw [him] at h
      exact Except.noConfusion h

/-- One image anywhere in the document makes extract_images raise. -/
theorem extract_images_error {doc : List Page}
    (h : ∃ pg ∈ doc, pg.images ≠ []) : extract_images doc = .error .nameError := by
  induction doc with
  | nil =>
    rcases h with ⟨pg, hm, _⟩
    cases hm
  | cons pg rest ih =>
    rw [extract_images_cons]
    cases him : pg.images with
    | nil =>
      rcases h with ⟨q, hq, hne⟩
      rcases List.mem_cons.mp hq with hqe | hq2
      · exact absurd (hqe ▸ him) hne
      · exact ih ⟨q, hq2, hne⟩
    | cons a b => rfl

/-- A document without images makes extract_images return the empty list. -/
theorem extract_images_noimg {doc : List Page} (h : ∀ pg ∈ doc, pg.images = []) :
    extract_images doc = .ok [] := by
  induction doc with
  | nil => rfl
  | cons pg rest ih =>
    rw [extract_images_cons, h pg (List.mem_cons_self pg rest)]
    exact ih fun q hq => h q (List.mem_cons_of_mem _ hq)

/-- A document none of whose pages has a table marked block makes
extract_tables return the empty list. -/
theorem extract_tables_nil {doc : List Page}
    (h : ∀ pg ∈ doc, (pySplitDoubleNL pg.text).filter hasTableMark = []) :
    extract_tables doc = [] := by
  unfold extract_tables
  rw [List.flatMap_eq_nil_iff]
  intro z hz
  rw [h z.2 (snd_mem_enumFrom hz)]
  rfl

/-- The code side paragraph batch equals the spec side paragraph batch:
splitting, stripping, dropping empties and numbering commute as stated. -/
theorem extract_text_eq_spec (doc : List Page) :
    extract_text_with_metadata doc = spec_paragraph_batch doc := by
  unfold extract_text_with_metadata spec_paragraph_batch spec_number_fragments
    spec_page_fragments
  rw [List.enumFrom_eq_zip_range']
  congr 1
  funext z
  rw [List.filter_map, ← List.enumFrom_eq_zip_range']
  rfl

/-- Reading after a one point upsert: the written id returns the new pair,
any other id is unchanged. -/
theorem getPoint_putPoint {V : Type} (st : StoreMap V) (i j : Nat) (p : V × Dict) :
    getPoint i (putPoint st j p) = if i = j then some p else getPoint i st := by
  induction st with
  | nil =>
    by_cases hij : i = j <;> simp [putPoint, getPoint, hij]
  | cons kv rest ih =>
    rcases kv with ⟨k, q⟩
    by_cases hjk : j = k
    · subst hjk
      by_cases hij : i = j <;> simp [putPoint, getPoint, hij]
    · by_cases hik : i = k
      · subst hik
        have hij : ¬ i = j := fun hij => hjk (hij ▸ rfl)
        simp [putPoint, getPoint, hjk, hij, Ne.symm hjk]
      · by_cases hij : i = j
        · subst hij
          simp [putPoint, getPoint, hjk, hik, ih]
        · simp [putPoint, getPoint, hjk, hik, hij, ih]

/-- Upserting a batch none of whose ids is the read id leaves that read
unchanged. -/
theorem getPoint_upsert_notmem {V : Type} (pts : List (Point V)) (st : StoreMap V) (i : Nat)
    (h : ∀ p ∈ pts, p.id ≠ i) :
    getPoint i (upsertPoints st pts) = getPoint i st := by
  induction pts generalizing st with
  | nil => rfl
  | cons p rest ih =>
    have hne : i ≠ p.id := fun hip => h p (List.mem_cons_self p rest) hip.symm
    rw [upsertPoints_cons, ih _ (fun q hq => h q (List.mem_cons_of_mem _ hq)),
      getPoint_putPoint, if_neg hne]

/-- After upserting a batch with pairwise distinct ids, reading any id of
the batch returns that point of the batch. -/
theorem getPoint_upsert_mem {V : Type} (pts : List (Point V)) (st : StoreMap V) (q : Point V)
    (hq : q ∈ pts) (hnd : (pts.map Point.id).Nodup) :
    getPoint q.id (upsertPoints st pts) = some (q.vector, q.payload) := by
  induction pts generalizing st with
  | nil => cases hq
  | cons p rest ih =>
    rw [List.map_cons, List.nodup_cons] at hnd
    rw [upsertPoints_cons]
    rcases List.mem_cons.mp hq with hqp | hq2
    · subst hqp
      have hnotin : ∀ r ∈ rest, r.id ≠ q.id := by
        intro r hr hrq
        exact hnd.1 (hrq ▸ List.mem_map_of_mem Point.id hr)
      rw [getPoint_upsert_notmem rest _ q.id hnotin, getPoint_putPoint, if_pos rfl]
    · exact ih _ hq2 hnd.2

/-- In any batch whose items all select a text, the loop assigns
consecutive ids starting at the initial index: no item is skipped. -/
theorem store_points_aux_ids {V : Type} (encode : String → V) (data : List Dict) :
    ∀ n : Nat, (∀ d ∈ data, (select_text d).isSome) →
      (store_points_aux encode n data).map Point.id = List.range' n data.length := by
  induction data with
  | nil => intro n _; rfl
  | cons item rest ih =>
    intro n h
    have h1 := (List.forall_mem_cons.mp h).1
    have h2 := (List.forall_mem_cons.mp h).2
    rcases ho : select_text item with _ | t
    · rw [ho] at h1
      exact absurd h1 (by decide)
    · rw [store_points_aux_cons]
      simp only [ho]
      rw [List.map_cons, ih (n + 1) h2, List.length_cons, List.range'_succ]

/-- Ids of a fully selectable batch are 0 to the batch length minus 1, in
order. -/
theorem store_points_ids {V : Type} (encode : String → V) (data : List Dict)
    (h : ∀ d ∈ data, (select_text d).isSome) :
    (store_points encode data).map Point.id = List.range data.length := by
  rw [store_points, store_points_aux_ids encode data 0 h, List.range_eq_range']

/-- Every point the store_in_qdrant loop builds carries one of the batch
items verbatim as payload, and its vector is the embedding of the text the
selection policy picked from that payload. -/
theorem mem_store_points_aux {V : Type} (encode : String → V) (data : List Dict) :
    ∀ (n : Nat) (p : Point V), p ∈ store_points_aux encode n data →
      p.payload ∈ data ∧ ∃ t, select_text p.payload = some t ∧ p.vector = encode t := by
  induction data with
  | nil =>
    intro n p h
    cases h
  | cons item rest ih =>
    intro n p h
    rw [store_points_aux_cons] at h
    rcases ho : select_text item with _ | t
    · rw [ho] at h
      rcases ih (n + 1) p h with ⟨hmem, hsel⟩
      exact ⟨List.mem_cons_of_mem _ hmem, hsel⟩
    · rw [ho] at h
      rcases List.mem_cons.mp h with hp | hp
      · subst hp
        exact ⟨List.mem_cons_self item rest, t, ho, rfl⟩
      · rcases ih (n + 1) p hp with ⟨hmem, hsel⟩
        exact ⟨List.mem_cons_of_mem _ hmem, hsel⟩

/-- All paragraph batch items select a text. -/
theorem extract_text_selectable (doc : List Page) :
    ∀ d ∈ extract_text_with_metadata doc, (select_text d).isSome := by
  intro d h
  rcases mem_extract_text doc d h with ⟨t, page, para, he, _⟩
  rw [he, select_text_paragraphItem]
  rfl

/-- All table batch items select a text. -/
theorem extract_tables_selectable (doc : List Page) :
    ∀ d ∈ extract_tables doc, (select_text d).isSome := by
  intro d h
  rcases mem_extract_tables doc d h with ⟨b, tnum, page, he⟩
  rw [he, select_text_tableItem]
  rfl

/-! Claim theorems. -/

/-- C1: paragraph extraction splits each page text on double newline
boundaries, trims each fragment, discards the fragments that are empty
after trimming and numbers the survivors 1 to N per page in order (the
code side batch equals the batch built exactly as the spec words it); and
for a document with zero images and zero table marked fragments the table
batch and the image batch are empty. -/
theorem C1_paragraph_extraction (doc : List Page)
    (hImg : ∀ pg ∈ doc, pg.images = [])
    (hTab : ∀ pg ∈ doc, (pySplitDoubleNL pg.text).filter hasTableMark = []) :
    extract_text_with_metadata doc = spec_paragraph_batch doc
    ∧ extract_tables doc = [] ∧ extract_images doc = Except.ok [] :=
  ⟨extract_text_eq_spec doc, extract_tables_nil hTab, extract_images_noimg hImg⟩

/-- Witness for C1 on a two paragraph page without images or table
fragments. -/
theorem C1_paragraph_extraction_applied :
    extract_text_with_metadata [⟨"A\n\nB", []⟩] = spec_paragraph_batch [⟨"A\n\nB", []⟩]
    ∧ extract_tables [⟨"A\n\nB", []⟩] = []
    ∧ extract_images [⟨"A\n\nB", []⟩] = Except.ok [] :=
  C1_paragraph_extraction [⟨"A\n\nB", []⟩] (by decide) (by decide)

/-- C2 counterexample: a table unit has nonempty content (its table
field), yet the string handed to the embedding model (the vector, here
under the identity embedder) is the description placeholder, not the
content. -/
theorem C2_table_content_not_embedded :
    extract_tables [⟨"a | b", []⟩] = [tableItem "a | b" 1 1]
    ∧ select_text (tableItem "a | b" 1 1) = some "Table 1 on page 1"
    ∧ store_points (fun s => s) (extract_tables [⟨"a | b", []⟩])
        = [{ id := 0, vector := "Table 1 on page 1", payload := tableItem "a | b" 1 1 }]
    ∧ ("Table 1 on page 1" : String) ≠ "a | b" :=
  ⟨rfl, rfl, rfl, by decide⟩

/-- C2 as amended: selection is by dictionary key, not by content. An item
with a text key embeds that value; an item without one embeds its
description value when present; every stored point embeds exactly the
selected text of its own payload (so an item selecting nothing never
reaches the embedder); and every table unit, having no text key, selects
its description placeholder. -/
theorem C2_text_selection_policy :
    (∀ (item : Dict) (v : Value), item.lookup "text" = some v →
        select_text item = some v.asStr)
    ∧ (∀ item : Dict, item.lookup "text" = none →
        select_text item = (item.lookup "description").map Value.asStr)
    ∧ (∀ (V : Type) (encode : String → V) (data : List Dict) (p : Point V),
        p ∈ store_points encode data →
          ∃ t, select_text p.payload = some t ∧ p.vector = encode t)
    ∧ (∀ (doc : List Page) (d : Dict), d ∈ extract_tables doc →
        ∃ b tnum page, d = tableItem b tnum page
          ∧ select_text d = some (tableDescr tnum page)) := by
  refine ⟨?_, ?_, ?_, ?_⟩
  · intro item v hv
    rw [select_text, hv]
  · intro item hnone
    rw [select_text, hnone]
    cases hd : item.lookup "description" <;> rfl
  · intro V encode data p hp
    exact (mem_store_points_aux encode data 0 p hp).2
  · intro doc d hd
    rcases mem_extract_tables doc d hd with ⟨b, tnum, page, he⟩
    exact ⟨b, tnum, page, he, he ▸ select_text_tableItem b tnum page⟩

/-- C3: the name BytesIO is used on line 112 of main.py but never imported
or defined, so any document with at least one embedded image makes
extract_images raise NameError on the first image, and process_pdf aborts
with the collection holding exactly the paragraph and table batches: the
image batch is never stored. -/
theorem C3_extract_images_raises {V : Type} (encode : String → V) (st0 : StoreMap V)
    (doc : List Page) (h : ∃ pg ∈ doc, pg.images ≠ []) :
    extract_images doc = Except.error PyError.nameError
    ∧ process_pdf encode doc st0 =
        (store_in_qdrant encode
          (store_in_qdrant encode st0 (extract_text_with_metadata doc))
          (extract_tables doc),
         Except.error PyError.nameError) := by
  have he := extract_images_error h
  refine ⟨he, ?_⟩
  simp only [process_pdf, he]

/-- Witness for C3 on a one page document with one image. -/
theorem C3_extract_images_raises_applied :
    extract_images [⟨"", [⟨"ocr text"⟩]⟩] = Except.error PyError.nameError
    ∧ process_pdf (fun s => s) [⟨"", [⟨"ocr text"⟩]⟩] ([] : StoreMap String) =
        (store_in_qdrant (fun s => s)
          (store_in_qdrant (fun s => s) []
            (extract_text_with_metadata [⟨"", [⟨"ocr text"⟩]⟩]))
          (extract_tables [⟨"", [⟨"ocr text"⟩]⟩]),
         Except.error PyError.nameError) :=
  C3_extract_images_raises (fun s => s) [] [⟨"", [⟨"ocr text"⟩]⟩]
    ⟨⟨"", [⟨"ocr text"⟩]⟩, by decide, by decide⟩

/-- C4: every fully selectable batch gets ids 0 to N-1 in order from the
per batch loop counter; in particular the paragraph and the table batches
do, so when both are nonempty both id sets contain 0; and because upsert
overwrites by id, after the table batch is upserted over the paragraph
batch every id of the table batch reads back as the table batch point. -/
theorem C4_point_ids_reused {V : Type} (encode : String → V) (st0 : StoreMap V)
    (doc : List Page)
    (hP : extract_text_with_metadata doc ≠ []) (hT : extract_tables doc ≠ []) :
    (∀ data : List Dict, (∀ d ∈ data, (select_text d).isSome) →
        (store_points encode data).map Point.id = List.range data.length)
    ∧ ((store_points encode (extract_text_with_metadata doc)).map Point.id
        = List.range (extract_text_with_metadata doc).length)
    ∧ ((store_points encode (extract_tables doc)).map Point.id
        = List.range (extract_tables doc).length)
    ∧ 0 ∈ (store_points encode (extract_text_with_metadata doc)).map Point.id
    ∧ 0 ∈ (store_points encode (extract_tables doc)).map Point.id
    ∧ ∀ q ∈ store_points encode (extract_tables doc),
        getPoint q.id
            (store_in_qdrant encode
              (store_in_qdrant encode st0 (extract_text_with_metadata doc))
              (extract_tables doc))
          = some (q.vector, q.payload) := by
  have hidP := store_points_ids encode _ (extract_text_selectable doc)
  have hidT := store_points_ids encode _ (extract_tables_selectable doc)
  refine ⟨fun data hsel => store_points_ids encode data hsel, hidP, hidT, ?_, ?_, ?_⟩
  · rw [hidP]
    exact List.mem_range.mpr (List.length_pos.mpr hP)
  · rw [hidT]
    exact List.mem_range.mpr (List.length_pos.mpr hT)
  · intro q hq
    have hnd : ((store_points encode (extract_tables doc)).map Point.id).Nodup := by
      rw [hidT]
      exact List.nodup_range _
    exact getPoint_upsert_mem _ _ q hq hnd

/-- Witness for C4 on a one page document with paragraphs A and B|C, the
second also a table marked block. -/
theorem C4_point_ids_reused_applied :
    (∀ data : List Dict, (∀ d ∈ data, (select_text d).isSome) →
        (store_points (fun s => s) data).map Point.id = List.range data.length)
    ∧ ((store_points (fun s => s) (extract_text_with_metadata [⟨"A\n\nB|C", []⟩])).map Point.id
        = List.range (extract_text_with_metadata [⟨"A\n\nB|C", []⟩]).length)
    ∧ ((store_points (fun s => s) (extract_tables [⟨"A\n\nB|C", []⟩])).map Point.id
        = List.range (extract_tables [⟨"A\n\nB|C", []⟩]).length)
    ∧ 0 ∈ (store_points (fun s => s) (extract_text_with_metadata [⟨"A\n\nB|C", []⟩])).map Point.id
    ∧ 0 ∈ (store_points (fun s => s) (extract_tables [⟨"A\n\nB|C", []⟩])).map Point.id
    ∧ ∀ q ∈ store_points (fun s => s) (extract_tables [⟨"A\n\nB|C", []⟩]),
        getPoint q.id
            (store_in_qdrant (fun s => s)
              (store_in_qdrant (fun s => s) ([] : StoreMap String)
                (extract_text_with_metadata [⟨"A\n\nB|C", []⟩]))
              (extract_tables [⟨"A\n\nB|C", []⟩]))
          = some (q.vector, q.payload) :=
  C4_point_ids_reused (fun s => s) [] [⟨"A\n\nB|C", []⟩] (by decide) (by decide)

/-- C5 counterexample: an unreachable store during collection creation is
not surfaced to the caller: the bare except swallows the client failure
and the method reports success, silently continuing. -/
theorem C5_creation_failure_swallowed :
    create_qdrant_collection false false = (false, Except.ok ()) := rfl

/-- C5 as amended: a failure of the client call is surfaced unchanged for
upsert and for query, which have no exception handler; but a failure
during collection creation, unreachable store included, is swallowed by
the bare except and creation always reports success. -/
theorem C5_store_failure_propagation :
    (∀ (V : Type) (encode : String → V) (st : StoreMap V) (data : List Dict),
        store_in_qdrant_run false encode st data = Except.error StoreError.unreachable
        ∧ store_in_qdrant_run true encode st data = Except.ok (store_in_qdrant encode st data))
    ∧ (∀ (V : Type) (search : V → Nat → Except StoreError (List (V × Dict)))
        (encode : String → V) (q : String) (k : Nat) (e : StoreError),
        search (encode q) k = Except.error e →
          query_qdrant search encode q k = Except.error e)
    ∧ (∀ r c : Bool, (create_qdrant_collection r c).2 = Except.ok ()) := by
  refine ⟨fun V encode st data => ⟨rfl, rfl⟩, ?_, ?_⟩
  · intro V search encode q k e he
    rw [query_qdrant, he]
  · intro r c
    cases r <;> cases c <;> rfl

/-- C6: a fragment of the double newline split is kept as a table marked
block exactly when it contains a pipe or a tab; on the spec scenario page
the batch holds two paragraphs with ordinals 1 and 2 and one table block
with ordinal 1, the pipe fragment appearing as both; and table numbering
restarts at 1 on every page. -/
theorem C6_table_detection :
    (∀ (t b : String), b ∈ (pySplitDoubleNL t).filter hasTableMark ↔
        b ∈ pySplitDoubleNL t ∧ hasTableMark b = true)
    ∧ extract_text_with_metadata [⟨"Intro line.\n\nSecond para with | pipe.\n\n", []⟩]
        = [paragraphItem "Intro line." 1 1, paragraphItem "Second para with | pipe." 1 2]
    ∧ extract_tables [⟨"Intro line.\n\nSecond para with | pipe.\n\n", []⟩]
        = [tableItem "Second para with | pipe." 1 1]
    ∧ extract_tables [⟨"a|b", []⟩, ⟨"c\td", []⟩]
        = [tableItem "a|b" 1 1, tableItem "c\td" 1 2] :=
  ⟨fun _ _ => List.mem_filter, rfl, rfl, rfl⟩

/-- C7: the run of extract_images on a document whose third page has one
image with whitespace only OCR text raises NameError before any caption is
built; the caption expression of line 116, once the missing BytesIO import
is supplied, does yield the placeholder Image 1 on page 3 for it. -/
theorem C7_placeholder_caption :
    extract_images [⟨"", []⟩, ⟨"", []⟩, ⟨"", [⟨"  \n "⟩]⟩] = Except.error PyError.nameError
    ∧ pyStrip "  \n " = ""
    ∧ extract_images_fixed [⟨"", []⟩, ⟨"", []⟩, ⟨"", [⟨"  \n "⟩]⟩]
        = [imageItem "Image 1 on page 3" 3 1] :=
  ⟨rfl, rfl, rfl⟩

/-- C8: every unit the extractors produce selects a nonempty text for
embedding: paragraph texts survived the nonempty filter, table units
select their never empty description placeholder, and a non raising run of
extract_images produces no unit at all. -/
theorem C8_embedded_text_nonempty (doc : List Page) (d : Dict)
    (h : d ∈ extract_text_with_metadata doc ∨ d ∈ extract_tables doc
        ∨ ∃ l, extract_images doc = Except.ok l ∧ d ∈ l) :
    ∃ t, select_text d = some t ∧ t ≠ "" := by
  rcases h with h | h | ⟨l, hl, hd⟩
  · rcases mem_extract_text doc d h with ⟨t, page, para, he, hne⟩
    exact ⟨t, he ▸ select_text_paragraphItem t page para, ne_empty_of_isEmpty_false hne⟩
  · rcases mem_extract_tables doc d h with ⟨b, tnum, page, he⟩
    exact ⟨tableDescr tnum page, he ▸ select_text_tableItem b tnum page,
      tableDescr_ne_empty tnum page⟩
  · rw [extract_images_ok_nil hl] at hd
    cases hd

/-- Witness for C8 on a concrete paragraph unit. -/
theorem C8_embedded_text_nonempty_applied :
    ∃ t, select_text (paragraphItem "A" 1 1) = some t ∧ t ≠ "" :=
  C8_embedded_text_nonempty [⟨"A", []⟩] (paragraphItem "A" 1 1) (Or.inl (by decide))

/-- C9 counterexample: the stored point for the table unit with ordinal 1
on page 2 carries the item dictionary as payload, whose keys are exactly
table, description and page: it has no kind field and no field holding the
ordinal 1, which appears only inside the description string. -/
theorem C9_table_payload_lacks_ordinal :
    extract_tables [⟨"x", []⟩, ⟨"a|b", []⟩] = [tableItem "a|b" 1 2]
    ∧ store_points (fun s => s) (extract_tables [⟨"x", []⟩, ⟨"a|b", []⟩])
        = [{ id := 0, vector := "Table 1 on page 2", payload := tableItem "a|b" 1 2 }]
    ∧ (tableItem "a|b" 1 2).map Prod.fst = ["table", "description", "page"]
    ∧ (tableItem "a|b" 1 2).lookup "kind" = none
    ∧ Value.n 1 ∉ (tableItem "a|b" 1 2).map Prod.snd :=
  ⟨rfl, rfl, rfl, rfl, by decide⟩

/-- C9 as amended: the payload of every stored point is one of the batch
items verbatim; paragraph payloads carry exactly the keys text, page and
paragraph, table payloads exactly table, description and page (the table
ordinal only inside the description string, not as a field), and no image
payload is ever stored since a non raising extract_images run is empty; no
payload carries a kind field. -/
theorem C9_payload_verbatim :
    (∀ (V : Type) (encode : String → V) (data : List Dict) (p : Point V),
        p ∈ store_points encode data → p.payload ∈ data)
    ∧ (∀ (doc : List Page) (d : Dict), d ∈ extract_text_with_metadata doc →
        d.map Prod.fst = ["text", "page", "paragraph"] ∧ d.lookup "kind" = none)
    ∧ (∀ (doc : List Page) (d : Dict), d ∈ extract_tables doc →
        d.map Prod.fst = ["table", "description", "page"] ∧ d.lookup "kind" = none)
    ∧ (∀ (doc : List Page) (l : List Dict), extract_images doc = Except.ok l → l = []) := by
  refine ⟨?_, ?_, ?_, ?_⟩
  · intro V encode data p hp
    exact (mem_store_points_aux encode data 0 p hp).1
  · intro doc d hd
    rcases mem_extract_text doc d hd with ⟨t, page, para, he, _⟩
    rw [he]
    exact ⟨rfl, rfl⟩
  · intro doc d hd
    rcases mem_extract_tables doc d hd with ⟨b, tnum, page, he⟩
    rw [he]
    exact ⟨rfl, rfl⟩
  · intro doc l hl
    exact extract_images_ok_nil hl

/-- C10: collection creation never raises, whatever the client call does:
calling it twice in a row succeeds both times, also when the collection
already exists or the store is unreachable. -/
theorem C10_create_collection_idempotent (reachable collExists : Bool) :
    (create_qdrant_collection reachable collExists).2 = Except.ok ()
    ∧ (create_qdrant_collection reachable
        (create_qdrant_collection reachable collExists).1).2 = Except.ok ()
    ∧ (create_qdrant_collection reachable true).2 = Except.ok () := by
  cases reachable <;> cases collExists <;> exact ⟨rfl, rfl, rfl⟩

end PdfMeta
